import Mathlib

/-!
Shallow embedding of the ssh-agent-router mediator core (src/agent.rs and
src/socket.rs) and proofs of the specification claims about it.

Bytes are modelled as `Nat` values below 256 inside `List Nat`; machine
integers (`u32`, `u64`) are `Nat` with explicit `% 2^32` / `% 2^64`
truncation where the source can overflow.  Rust `Result` is `Except Unit`
(the mediator never inspects the error payload), `Option` is `Option`.
Rust `String` fields that originate from `String::from_utf8_lossy` are
modelled as the byte list of the resulting string, i.e. the lossy
re-encoding of the received bytes.
-/

namespace SshAgentRouter

/-- Word truncation for `u32` arithmetic. -/
def w32 (n : Nat) : Nat := n % 4294967296

/-- Big-endian 4-byte serialization of a `u32` value, as in
`u32::to_be_bytes` (an oversized `Nat` is truncated exactly as the
`as u32` cast does). -/
def be32 (n : Nat) : List Nat :=
  [n / 16777216 % 256, n / 65536 % 256, n / 256 % 256, n % 256]

/-- Big-endian 8-byte serialization of a `u64` value, as in
`u64::to_be_bytes`. -/
def be64 (n : Nat) : List Nat := be32 (n / 4294967296) ++ be32 n

/-- Reassemble four bytes big-endian, as in `u32::from_be_bytes`. -/
def from4 (a b c d : Nat) : Nat := ((a * 256 + b) * 256 + c) * 256 + d

/-- Read a big-endian `u32` from four consecutive bytes of a list
starting at index `i` (the source always checks the bounds first, so the
`getD` defaults are never reached in the modelled paths). -/
def readBE32 (l : List Nat) (i : Nat) : Nat :=
  from4 (l.getD i 0) (l.getD (i+1) 0) (l.getD (i+2) 0) (l.getD (i+3) 0)

/-! ## SHA-256 (the `sha2` crate dependency of `calculate_fingerprint`),
translated from FIPS 180-4. -/

/-- Right rotation of a 32-bit word. -/
def rotr32 (r x : Nat) : Nat := w32 ((x >>> r) ||| (x <<< (32 - r)))

def shaCh (x y z : Nat) : Nat := (x &&& y) ^^^ ((x ^^^ 4294967295) &&& z)

def shaMaj (x y z : Nat) : Nat := (x &&& y) ^^^ (x &&& z) ^^^ (y &&& z)

def bigSigma0 (x : Nat) : Nat := rotr32 2 x ^^^ rotr32 13 x ^^^ rotr32 22 x

def bigSigma1 (x : Nat) : Nat := rotr32 6 x ^^^ rotr32 11 x ^^^ rotr32 25 x

def smallSigma0 (x : Nat) : Nat := rotr32 7 x ^^^ rotr32 18 x ^^^ (x >>> 3)

def smallSigma1 (x : Nat) : Nat := rotr32 17 x ^^^ rotr32 19 x ^^^ (x >>> 10)

/-- The 64 SHA-256 round constants, in decimal. -/
def sha256K : List Nat :=
  [1116352408, 1899447441, 3049323471, 3921009573, 961987163,
   1508970993, 2453635748, 2870763221, 3624381080, 310598401,
   607225278, 1426881987, 1925078388, 2162078206, 2614888103,
   3248222580, 3835390401, 4022224774, 264347078, 604807628,
   770255983, 1249150122, 1555081692, 1996064986, 2554220882,
   2821834349, 2952996808, 3210313671, 3336571891, 3584528711,
   113926993, 338241895, 666307205, 773529912, 1294757372,
   1396182291, 1695183700, 1986661051, 2177026350, 2456956037,
   2730485921, 2820302411, 3259730800, 3345764771, 3516065817,
   3600352804, 4094571909, 275423344, 430227734, 506948616,
   659060556, 883997877, 958139571, 1322822218, 1537002063,
   1747873779, 1955562222, 2024104815, 2227730452, 2361852424,
   2428436474, 2756734187, 3204031479, 3329325298]

/-- Working state: eight 32-bit words. -/
structure Hash8 where
  h0 : Nat
  h1 : Nat
  h2 : Nat
  h3 : Nat
  h4 : Nat
  h5 : Nat
  h6 : Nat
  h7 : Nat

/-- The SHA-256 initial hash value, in decimal. -/
def sha256Init : Hash8 :=
  ⟨1779033703, 3144134277, 1013904242, 2773480762,
   1359893119, 2600822924, 528734635, 1541459225⟩

/-- Append the next message-schedule word. -/
def scheduleExtend (w : List Nat) : List Nat :=
  w ++ [w32 (smallSigma1 (w.getD (w.length - 2) 0) + w.getD (w.length - 7) 0 +
             smallSigma0 (w.getD (w.length - 15) 0) + w.getD (w.length - 16) 0)]

/-- The 64-word message schedule of one 64-byte block. -/
def schedule (block : List Nat) : List Nat :=
  let w0 := (List.range 16).map fun i =>
    from4 (block.getD (4*i) 0) (block.getD (4*i+1) 0)
          (block.getD (4*i+2) 0) (block.getD (4*i+3) 0)
  scheduleExtend^[48] w0

/-- One compression round. -/
def sha256Round (w : List Nat) (st : Hash8) (t : Nat) : Hash8 :=
  let t1 := w32 (st.h7 + bigSigma1 st.h4 + shaCh st.h4 st.h5 st.h6 +
                 sha256K.getD t 0 + w.getD t 0)
  let t2 := w32 (bigSigma0 st.h0 + shaMaj st.h0 st.h1 st.h2)
  ⟨w32 (t1 + t2), st.h0, st.h1, st.h2, w32 (st.h3 + t1), st.h4, st.h5, st.h6⟩

/-- Compress one 64-byte block into the state. -/
def sha256Compress (st : Hash8) (block : List Nat) : Hash8 :=
  let r := (List.range 64).foldl (sha256Round (schedule block)) st
  ⟨w32 (st.h0 + r.h0), w32 (st.h1 + r.h1), w32 (st.h2 + r.h2),
   w32 (st.h3 + r.h3), w32 (st.h4 + r.h4), w32 (st.h5 + r.h5),
   w32 (st.h6 + r.h6), w32 (st.h7 + r.h7)⟩

/-- SHA-256 padding: a 0x80 byte, zeros to 56 mod 64, then the bit length
as a big-endian `u64`. -/
def sha256Pad (msg : List Nat) : List Nat :=
  msg ++ [128] ++ List.replicate ((120 - (msg.length + 1) % 64) % 64) 0 ++
    be64 (8 * msg.length)

/-- Split a byte list into 64-byte blocks. -/
def toBlocks (l : List Nat) : List (List Nat) :=
  if h : l = [] then [] else l.take 64 :: toBlocks (l.drop 64)
termination_by l.length
decreasing_by
  simp only [List.length_drop]
  exact Nat.sub_lt (List.length_pos.mpr h) (by decide)

/-- The SHA-256 digest of a byte sequence, as 32 bytes. -/
def sha256 (msg : List Nat) : List Nat :=
  let st := (toBlocks (sha256Pad msg)).foldl sha256Compress sha256Init
  be32 st.h0 ++ be32 st.h1 ++ be32 st.h2 ++ be32 st.h3 ++
  be32 st.h4 ++ be32 st.h5 ++ be32 st.h6 ++ be32 st.h7

/-! ## Base64 without padding (the `base64` crate `STANDARD_NO_PAD` engine
used by `calculate_fingerprint`). -/

/-- The standard base64 alphabet. -/
def b64Table : List Char :=
  "ABCDEFGHIJKLMNOPQRSTUVWXYZabcdefghijklmnopqrstuvwxyz0123456789+/".toList

/-- Alphabet lookup. -/
def b64c (n : Nat) : Char := b64Table.getD n 'A'

/-- Standard base64 encoding without padding: 3 input bytes become 4
characters, a final 2-byte remainder becomes 3 characters, a final 1-byte
remainder becomes 2 characters. -/
def b64Encode : List Nat → List Char
  | a :: b :: c :: rest =>
      b64c (a >>> 2) :: b64c (((a &&& 3) <<< 4) ||| (b >>> 4)) ::
      b64c (((b &&& 15) <<< 2) ||| (c >>> 6)) :: b64c (c &&& 63) ::
      b64Encode rest
  | [a, b] =>
      [b64c (a >>> 2), b64c (((a &&& 3) <<< 4) ||| (b >>> 4)),
       b64c ((b &&& 15) <<< 2)]
  | [a] => [b64c (a >>> 2), b64c ((a &&& 3) <<< 4)]
  | [] => []

/-! ## UTF-8 lossy re-encoding, modelling `String::from_utf8_lossy`
(followed by `.as_bytes()` when the string is re-serialized).  A maximal
valid sequence is copied verbatim; an invalid subpart is replaced by the
UTF-8 bytes of U+FFFD, `[239, 191, 189]`, with the skip length chosen as
in the Rust standard library (one byte for a bad starter or bad second
byte, two when the third byte of a longer sequence is bad, three when the
fourth is bad, and a truncated tail collapses to one replacement). -/

/-- UTF-8 continuation byte test. -/
def isCont (b : Nat) : Bool := 128 ≤ b && b ≤ 191

/-- Allowed range of the second byte of a 3-byte sequence, by starter. -/
def cont3ok (b0 b1 : Nat) : Bool :=
  if b0 = 224 then 160 ≤ b1 && b1 ≤ 191
  else if b0 = 237 then 128 ≤ b1 && b1 ≤ 159
  else isCont b1

/-- Allowed range of the second byte of a 4-byte sequence, by starter. -/
def cont4ok (b0 b1 : Nat) : Bool :=
  if b0 = 240 then 144 ≤ b1 && b1 ≤ 191
  else if b0 = 244 then 128 ≤ b1 && b1 ≤ 143
  else isCont b1

/-- The UTF-8 bytes of the replacement character U+FFFD. -/
def fffd : List Nat := [239, 191, 189]

/-- Classification of one UTF-8 sequence starting at byte `b0` with the
following bytes in `rest`: `(true, n)` means a valid sequence of `b0`
plus `n` continuation bytes; `(false, n)` means an invalid subpart made
of `b0` plus the `n` following bytes that matched so far (they are
replaced by one U+FFFD and skipped), which also covers a sequence
truncated by the end of input. -/
def utf8Class (b0 : Nat) (rest : List Nat) : Bool × Nat :=
  if b0 < 128 then (true, 0)
  else if 194 ≤ b0 && b0 ≤ 223 then
    match rest with
    | [] => (false, 0)
    | b1 :: _ => if isCont b1 then (true, 1) else (false, 0)
  else if 224 ≤ b0 && b0 ≤ 239 then
    match rest with
    | [] => (false, 0)
    | b1 :: rest2 =>
      if cont3ok b0 b1 then
        match rest2 with
        | [] => (false, 1)
        | b2 :: _ => if isCont b2 then (true, 2) else (false, 1)
      else (false, 0)
  else if 240 ≤ b0 && b0 ≤ 244 then
    match rest with
    | [] => (false, 0)
    | b1 :: rest2 =>
      if cont4ok b0 b1 then
        match rest2 with
        | [] => (false, 1)
        | b2 :: rest3 =>
          if isCont b2 then
            match rest3 with
            | [] => (false, 2)
            | b3 :: _ => if isCont b3 then (true, 3) else (false, 2)
          else (false, 1)
      else (false, 0)
  else (false, 0)

/-- Fueled worker for the lossy re-encoding; every step consumes at
least the head byte, so fuel equal to the length of the list always
suffices and the zero-fuel case is unreachable from `utf8Lossy`. -/
def utf8LossyFuel : Nat → List Nat → List Nat
  | _, [] => []
  | 0, _ :: _ => []
  | fuel+1, b0 :: rest =>
    match utf8Class b0 rest with
    | (true, n) => b0 :: (rest.take n ++ utf8LossyFuel fuel (rest.drop n))
    | (false, n) => fffd ++ utf8LossyFuel fuel (rest.drop n)

/-- Bytes of the string produced by `String::from_utf8_lossy`: maximal
valid sequences are copied verbatim, each invalid subpart becomes one
U+FFFD. -/
def utf8Lossy (l : List Nat) : List Nat := utf8LossyFuel l.length l

/-- Fueled worker for UTF-8 validity. -/
def utf8ValidFuel : Nat → List Nat → Bool
  | _, [] => true
  | 0, _ :: _ => false
  | fuel+1, b0 :: rest =>
    match utf8Class b0 rest with
    | (true, n) => utf8ValidFuel fuel (rest.drop n)
    | (false, _) => false

/-- UTF-8 validity of a byte sequence, with the same sequence
classification as `utf8Lossy`. -/
def utf8Valid (l : List Nat) : Bool := utf8ValidFuel l.length l

/-! ## Identities and the fingerprint (src/agent.rs, `SshKey`). -/

/-- An upstream identity as materialized by `Agent::list_keys`.  The Rust
`String` fields `key_type` and `comment` are modelled by the byte list
of the string (they are produced by `from_utf8_lossy` and re-serialized
with `.as_bytes()`). -/
structure SshKey where
  key_type : List Nat
  blob : List Nat
  comment : List Nat
  fingerprint : String
  deriving DecidableEq, Repr

/-- `SshKey::calculate_fingerprint`: `format!("SHA256:{}",
STANDARD_NO_PAD.encode(&Sha256::digest(blob)))`. -/
def calculate_fingerprint (blob : List Nat) : String :=
  "SHA256:" ++ String.mk (b64Encode (sha256 blob))

/-- `SshKey::from_blob`. -/
def SshKey.from_blob (key_type blob comment : List Nat) : SshKey :=
  ⟨key_type, blob, comment, calculate_fingerprint blob⟩

/-! ## The per-endpoint policy (src/socket.rs, `FilteredSocket`).  The
`path` and `agent` fields play no part in the filtering decisions and
are not modelled here; the upstream agent is modelled separately by
`Upstream`. -/

/-- The policy data of one endpoint: the allow and deny fingerprint sets
(Rust `HashSet<String>`, modelled as lists with membership by
`contains`). -/
structure FilteredSocket where
  allowed_fingerprints : List String
  denied_fingerprints : List String

/-- `FilteredSocket::is_key_allowed`. -/
def FilteredSocket.is_key_allowed (s : FilteredSocket) (key : SshKey) : Bool :=
  if s.denied_fingerprints.contains key.fingerprint then false
  else if s.allowed_fingerprints.isEmpty then true
  else s.allowed_fingerprints.contains key.fingerprint

/-- Serialization of one identity inside a type-12 body, as emitted by
`filter_identities_response` (blob length, blob, comment length,
comment). -/
def encodeKey (k : SshKey) : List Nat :=
  be32 k.blob.length ++ k.blob ++ be32 k.comment.length ++ k.comment

/-- `FilteredSocket::filter_identities_response`.  The
`self.agent.list_keys()?` call is modelled by the `listKeys` argument;
note the source consults it only after the type-12 check. -/
def FilteredSocket.filter_identities_response (s : FilteredSocket)
    (listKeys : Except Unit (List SshKey)) (response : List Nat) :
    Except Unit (List Nat) :=
  if response.length < 5 ∨ response.getD 4 0 ≠ 12 then .ok response
  else
    match listKeys with
    | .error e => .error e
    | .ok all_keys =>
      let filtered := all_keys.filter s.is_key_allowed
      let new_response :=
        12 :: (be32 filtered.length ++ (filtered.map encodeKey).flatten)
      .ok (be32 new_response.length ++ new_response)

/-- The decision of the `for key in &all_keys` loop of
`filter_sign_request`: the first identity with a byte-equal blob decides
(refusal frame when it is not allowed, `none` when it is), and the loop
breaks; no match gives `none`. -/
def signDecision (s : FilteredSocket) (blob : List Nat) :
    List SshKey → Option (List Nat)
  | [] => none
  | k :: rest =>
    if k.blob = blob then
      if s.is_key_allowed k then none else some [0, 0, 0, 1, 5]
    else signDecision s blob rest

/-- `FilteredSocket::filter_sign_request`, over the full frame (length
prefix included): bytes 5..9 hold the blob length, bytes 9.. the blob.
The two early bound checks return `Ok(None)` before upstream is
consulted. -/
def FilteredSocket.filter_sign_request (s : FilteredSocket)
    (listKeys : Except Unit (List SshKey)) (request : List Nat) :
    Except Unit (Option (List Nat)) :=
  if request.length < 9 then .ok none
  else
    let blob_len := readBE32 request 5
    if request.length < 9 + blob_len then .ok none
    else
      let blob := (request.drop 9).take blob_len
      match listKeys with
      | .error e => .error e
      | .ok all_keys => .ok (signDecision s blob all_keys)

/-- `FilteredSocket::should_filter_request` (the `&self` receiver is
unused in the source). -/
def should_filter_request (request : List Nat) : Bool :=
  request.length > 4 && request.getD 4 0 == 13

/-! ## The upstream agent and one iteration of the connection loop. -/

/-- The upstream agent as observed through `Agent`: the outcome of
`list_keys()` and of `forward_request` per request frame.  `Except.error`
stands for any `anyhow` error (connect refused, protocol error, I/O
error). -/
structure Upstream where
  listKeys : Except Unit (List SshKey)
  forward : List Nat → Except Unit (List Nat)

/-- Observable outcome of one iteration of the `handle_client` loop:
the bytes written downstream, the frame passed to
`Agent::forward_request` (if any), and whether the loop continues
(`false` means `handle_client` returns and the connection closes). -/
structure IterOut where
  down : List Nat
  forwarded : Option (List Nat)
  continues : Bool
  deriving DecidableEq, Repr

/-- One iteration of `FilteredSocket::handle_client` (src/socket.rs lines
143-192) after the 4-byte length prefix decoding to `msg_len` has been
read and, when within bounds, a body of `msg_len` bytes has been read
into `request`.  An oversized declared length raises an error before the
body is read, so in that branch `request` is ignored. -/
def handleIteration (s : FilteredSocket) (up : Upstream) (msg_len : Nat)
    (request : List Nat) : IterOut :=
  if msg_len > 1048576 then ⟨[], none, false⟩
  else
    let full_request := be32 msg_len ++ request
    let is_list := !request.isEmpty && request.getD 0 0 == 11
    let filterStep : Option IterOut :=
      if should_filter_request full_request then
        match s.filter_sign_request up.listKeys full_request with
        | .error _ => some ⟨[], none, false⟩
        | .ok (some failure) => some ⟨failure, none, true⟩
        | .ok none => none
      else none
    match filterStep with
    | some out => out
    | none =>
      match up.forward full_request with
      | .error _ => ⟨[], some full_request, false⟩
      | .ok response =>
        if is_list then
          match s.filter_identities_response up.listKeys response with
          | .error _ => ⟨[], some full_request, false⟩
          | .ok final => ⟨final, some full_request, true⟩
        else ⟨response, some full_request, true⟩

/-! ## Parsing of the type-12 identities answer (src/agent.rs,
`Agent::list_keys`).  The source walks `msg_buf` with an absolute
position `pos`; the embedding carries the remaining suffix
`msg_buf[pos..]` instead, which the sequential accesses make
equivalent. -/

/-- The bytes of the Rust string `"unknown"`. -/
def unknownBytes : List Nat := [117, 110, 107, 110, 111, 119, 110]

/-- Key-type extraction from a blob (the first inner string of the
blob); on bound failure the tag is `"unknown"`. -/
def parseKeyType (blob : List Nat) : List Nat :=
  if blob.length > 4 then
    let type_len := readBE32 blob 0
    if blob.length ≥ 4 + type_len then utf8Lossy ((blob.drop 4).take type_len)
    else unknownBytes
  else unknownBytes

/-- The `for _ in 0..num_keys` parsing loop; every `break` of the source
returns the identities parsed so far. -/
def parseKeys : Nat → List Nat → List SshKey
  | 0, _ => []
  | n+1, rest =>
    if rest.length < 4 then []
    else
      let blob_len := readBE32 rest 0
      let rest1 := rest.drop 4
      if rest1.length < blob_len then []
      else
        let blob := rest1.take blob_len
        let rest2 := rest1.drop blob_len
        if rest2.length < 4 then []
        else
          let comment_len := readBE32 rest2 0
          let rest3 := rest2.drop 4
          if rest3.length < comment_len then []
          else
            SshKey.from_blob (parseKeyType blob) blob
                (utf8Lossy (rest3.take comment_len)) ::
              parseKeys n (rest3.drop comment_len)

/-- The response-parsing part of `Agent::list_keys`, applied to the body
`msg_buf` of the upstream response frame: an empty body or a type byte
other than 12 is an error; a body too short to hold the count yields an
empty listing; otherwise up to `num_keys` identities are parsed. -/
def list_keys_parse (msg : List Nat) : Except Unit (List SshKey) :=
  if msg.isEmpty ∨ msg.getD 0 0 ≠ 12 then .error ()
  else if msg.length < 5 then .ok []
  else .ok (parseKeys (readBE32 msg 1) (msg.drop 5))

/-! ## Endpoint socket-file lifecycle (src/socket.rs, `start` and the
`Drop` impl).  Modelled as a trace machine over the events the source
produces: `FilteredSocket::start` removes any stale file and binds
(creating the file, accepting from then on); the accept loop builds a
per-connection `FilteredSocket` clone that is moved into the handler
thread, so when `handle_client` returns, that clone is dropped and its
`Drop` impl runs `std::fs::remove_file(&self.path)`; dropping the
long-lived value at process shutdown runs the same `Drop`. -/

inductive EndpointEv
  | bind
  | accept
  | disconnect
  | shutdown
  deriving DecidableEq, Repr

structure EndpointState where
  accepting : Bool
  fileOnDisk : Bool
  deriving DecidableEq, Repr

/-- Effect of each source event on the endpoint state. -/
def endpointStep : EndpointState → EndpointEv → EndpointState
  | _, .bind => ⟨true, true⟩
  | s, .accept => s
  | s, .disconnect => ⟨s.accepting, false⟩
  | s, .shutdown => ⟨false, false⟩

/-- Run an event trace from the initial state (not accepting, no file). -/
def runEndpoint (evs : List EndpointEv) : EndpointState :=
  evs.foldl endpointStep ⟨false, false⟩

/-! ## Helper lemmas -/

lemma length_be32 (n : Nat) : (be32 n).length = 4 := rfl

lemma getD_be32_append (n i d : Nat) (l : List Nat) :
    (be32 n ++ l).getD (4 + i) d = l.getD i d := by
  rw [List.getD_append_right _ _ _ _ (by simp [length_be32])]
  have h4 : 4 + i - (be32 n).length = i := by rw [length_be32]; omega
  rw [h4]

lemma readBE32_be32_append (n : Nat) (l : List Nat)
    (h : n < 4294967296) : readBE32 (be32 n ++ l) 0 = n := by
  have h0 : (be32 n ++ l).getD 0 0 = n / 16777216 % 256 := by
    rw [List.getD_append _ _ _ _ (by simp [length_be32])]; rfl
  have h1 : (be32 n ++ l).getD 1 0 = n / 65536 % 256 := by
    rw [List.getD_append _ _ _ _ (by simp [length_be32])]; rfl
  have h2 : (be32 n ++ l).getD 2 0 = n / 256 % 256 := by
    rw [List.getD_append _ _ _ _ (by simp [length_be32])]; rfl
  have h3 : (be32 n ++ l).getD 3 0 = n % 256 := by
    rw [List.getD_append _ _ _ _ (by simp [length_be32])]; rfl
  simp only [readBE32, from4, h0, h1, h2, h3]
  omega

lemma readBE32_be32 (n : Nat) (h : n < 4294967296) :
    readBE32 (be32 n) 0 = n := by
  have := readBE32_be32_append n [] h
  simpa using this

/-- The allow and deny decision depends only on the fingerprint field. -/
lemma is_key_allowed_congr (s : FilteredSocket) (k₁ k₂ : SshKey)
    (h : k₁.fingerprint = k₂.fingerprint) :
    s.is_key_allowed k₁ = s.is_key_allowed k₂ := by
  simp [FilteredSocket.is_key_allowed, h]

/-! ## C3 -/

/-- C3: the admit decision of `is_key_allowed` equals the reference
definition over the fingerprint of the identity: membership in the
deny-set forces `false` regardless of the allow-set (deny dominates
allow); with an empty allow-set every non-denied fingerprint is
admitted; otherwise the decision is exactly allow-set membership. -/
theorem c3_is_key_allowed_reference (s : FilteredSocket) (k : SshKey) :
    (s.denied_fingerprints.contains k.fingerprint = true →
      s.is_key_allowed k = false) ∧
    (s.denied_fingerprints.contains k.fingerprint = false →
      s.allowed_fingerprints = [] → s.is_key_allowed k = true) ∧
    (s.denied_fingerprints.contains k.fingerprint = false →
      s.allowed_fingerprints ≠ [] →
      s.is_key_allowed k = s.allowed_fingerprints.contains k.fingerprint) := by
  refine ⟨fun h₁ => ?_, fun h₁ h₂ => ?_, fun h₁ h₂ => ?_⟩
  · unfold FilteredSocket.is_key_allowed
    rw [h₁]
    simp
  · unfold FilteredSocket.is_key_allowed
    rw [h₁, h₂]
    simp
  · cases hA : s.allowed_fingerprints with
    | nil => exact absurd hA h₂
    | cons a t =>
      unfold FilteredSocket.is_key_allowed
      rw [h₁, hA]
      simp

/-- Witness for C3 at concrete policies and fingerprints. -/
theorem c3_is_key_allowed_reference_witness :
    FilteredSocket.is_key_allowed ⟨["a"], ["b"]⟩ ⟨[], [], [], "b"⟩ = false ∧
    FilteredSocket.is_key_allowed ⟨[], []⟩ ⟨[], [], [], "b"⟩ = true ∧
    FilteredSocket.is_key_allowed ⟨["a"], []⟩ ⟨[], [], [], "a"⟩ =
      List.contains ["a"] "a" :=
  ⟨(c3_is_key_allowed_reference ⟨["a"], ["b"]⟩ ⟨[], [], [], "b"⟩).1 (by decide),
   (c3_is_key_allowed_reference ⟨[], []⟩ ⟨[], [], [], "b"⟩).2.1 (by decide) rfl,
   (c3_is_key_allowed_reference ⟨["a"], []⟩ ⟨[], [], [], "a"⟩).2.2 (by decide)
     (by decide)⟩

/-! ## C7 -/

/-- C7: the claimed invariant (socket file on disk iff the endpoint is
accepting, with only shutdown removing it) is broken by the source: the
accept loop builds a per-connection clone of `FilteredSocket`, and when
`handle_client` returns, the clone is dropped and the `Drop` impl removes
the socket file while the listener is still accepting.  After bind, one
accepted connection and its termination, the endpoint still accepts but
the file is gone; the bind and shutdown parts of the claim do hold. -/
theorem c7_socket_file_lifecycle :
    (runEndpoint [.bind, .accept, .disconnect]).accepting = true ∧
    (runEndpoint [.bind, .accept, .disconnect]).fileOnDisk = false ∧
    (runEndpoint [.bind]).fileOnDisk = true ∧
    (runEndpoint [.bind]).accepting = true ∧
    (runEndpoint [.bind, .shutdown]).fileOnDisk = false := by decide

/-! ## C6 -/

/-- C6 counterexample: a declared length of 4294967295 bytes makes
`handle_client` return an error without writing anything downstream; the
claimed failure frame `[0,0,0,1,5]` is not sent. -/
theorem c6_counterexample :
    handleIteration ⟨[], []⟩ ⟨Except.ok [], fun r => Except.ok r⟩
        4294967295 [] = ⟨[], none, false⟩ ∧
    ([] : List Nat) ≠ [0, 0, 0, 1, 5] := ⟨rfl, by decide⟩

/-- C6 as amended: when the declared length prefix exceeds the 1 MiB
ceiling, the mediator closes the connection without writing anything
downstream (in particular no failure frame), the body bytes are not read
(the outcome does not depend on them), and nothing is forwarded
upstream. -/
theorem c6_oversize_closes (s : FilteredSocket) (up : Upstream)
    (msg_len : Nat) (request request' : List Nat)
    (h : msg_len > 1048576) :
    handleIteration s up msg_len request = ⟨[], none, false⟩ ∧
    handleIteration s up msg_len request =
      handleIteration s up msg_len request' := by
  constructor <;> · unfold handleIteration; rw [if_pos h]; try rw [if_pos h]

/-- Witness for C6 as amended. -/
theorem c6_oversize_closes_witness :
    handleIteration ⟨[], []⟩ ⟨Except.ok [], fun r => Except.ok r⟩
        1048577 [7] = ⟨[], none, false⟩ ∧
    handleIteration ⟨[], []⟩ ⟨Except.ok [], fun r => Except.ok r⟩
        1048577 [7] =
      handleIteration ⟨[], []⟩ ⟨Except.ok [], fun r => Except.ok r⟩
        1048577 [8, 9] :=
  c6_oversize_closes ⟨[], []⟩ ⟨Except.ok [], fun r => Except.ok r⟩
    1048577 [7] [8, 9] (by decide)

/-! ## C5 -/

/-- C5 counterexample: with upstream failing, a forwarded request makes
the iteration write nothing downstream and close the connection; the
claimed behavior (failure frame written, loop continues) does not hold. -/
theorem c5_counterexample :
    ¬ ((handleIteration ⟨[], []⟩ ⟨Except.error (), fun _ => Except.error ()⟩
          1 [17]).down = [0, 0, 0, 1, 5] ∧
       (handleIteration ⟨[], []⟩ ⟨Except.error (), fun _ => Except.error ()⟩
          1 [17]).continues = true) := by
  intro h
  exact absurd h.1 (by decide)

/-- C5 as amended: when every upstream exchange fails, an in-bounds
request makes `handle_client` propagate the error: nothing is written
downstream (no failure frame is synthesized) and the loop does not
continue, so the downstream connection closes instead of staying open. -/
theorem c5_upstream_error_closes (s : FilteredSocket) (up : Upstream)
    (msg_len : Nat) (request : List Nat)
    (hle : msg_len ≤ 1048576)
    (hlk : up.listKeys = Except.error ())
    (hfw : ∀ r, up.forward r = Except.error ()) :
    (handleIteration s up msg_len request).down = [] ∧
    (handleIteration s up msg_len request).continues = false := by
  have hmax : ¬ msg_len > 1048576 := by omega
  by_cases hf : should_filter_request (be32 msg_len ++ request) = true <;>
    by_cases h9 : 4 + request.length < 9 <;>
      by_cases hb : 4 + request.length <
          9 + readBE32 (be32 msg_len ++ request) 5 <;>
        simp [handleIteration, FilteredSocket.filter_sign_request, hlk, hfw,
          hf, h9, hb, hmax, length_be32]

/-- Witness for C5 as amended. -/
theorem c5_upstream_error_closes_witness :
    (handleIteration ⟨[], []⟩ ⟨Except.error (), fun _ => Except.error ()⟩
        1 [11]).down = [] ∧
    (handleIteration ⟨[], []⟩ ⟨Except.error (), fun _ => Except.error ()⟩
        1 [11]).continues = false :=
  c5_upstream_error_closes ⟨[], []⟩ ⟨Except.error (), fun _ => Except.error ()⟩
    1 [11] (by decide) rfl (fun _ => rfl)

/-! ## C9 -/

/-- C9 counterexample: a type-12 body declaring 2 identities while only
1 can be parsed makes `list_keys_parse` silently return the 1-element
listing as a success, not a `MalformedFrame` error as claimed. -/
theorem c9_counterexample :
    list_keys_parse [12, 0, 0, 0, 2, 0, 0, 0, 1, 65, 0, 0, 0, 0] =
      Except.ok [SshKey.from_blob unknownBytes [65] []] ∧
    readBE32 [12, 0, 0, 0, 2, 0, 0, 0, 1, 65, 0, 0, 0, 0] 1 = 2 ∧
    [SshKey.from_blob unknownBytes [65] []].length = 1 := ⟨rfl, rfl, rfl⟩

/-- C9 as amended: on a nonempty body whose type byte is 12 the parser
never fails; when an inner string length runs past the body or the
declared count cannot all be parsed, the loop breaks and the identities
parsed so far are returned as a success (a silently shorter list). -/
theorem c9_type12_parse_never_fails (msg : List Nat)
    (hne : msg ≠ []) (h12 : msg.getD 0 0 = 12) :
    ∃ keys, list_keys_parse msg = Except.ok keys := by
  have hie : msg.isEmpty = false := by
    cases msg with
    | nil => exact absurd rfl hne
    | cons a t => rfl
  have hcond : ¬ (msg.isEmpty = true ∨ msg.getD 0 0 ≠ 12) := by
    rw [hie, h12]; simp
  unfold list_keys_parse
  by_cases h5 : msg.length < 5
  · exact ⟨[], by rw [if_neg hcond, if_pos h5]⟩
  · exact ⟨_, by rw [if_neg hcond, if_neg h5]⟩

/-- Witness for C9 as amended: a minimal type-12 body parses to the
empty listing. -/
theorem c9_type12_parse_never_fails_witness :
    ∃ keys, list_keys_parse [12] = Except.ok keys :=
  c9_type12_parse_never_fails [12] (by decide) rfl

/-! ## C10 -/

/-- C10: for a type-11 request, when the upstream response frame is not
a type-12 identities answer, `filter_identities_response` returns the
response unchanged before ever consulting the upstream listing (here the
listing oracle errs, so its consultation would be visible), and the
iteration relays those bytes downstream verbatim. -/
theorem c10_non_answer_relayed (s : FilteredSocket) (up : Upstream)
    (msg_len : Nat) (request resp : List Nat)
    (hle : msg_len ≤ 1048576)
    (hne : request ≠ []) (h11 : request.getD 0 0 = 11)
    (hfw : up.forward (be32 msg_len ++ request) = Except.ok resp)
    (hnot : resp.length < 5 ∨ resp.getD 4 0 ≠ 12) :
    s.filter_identities_response up.listKeys resp = Except.ok resp ∧
    handleIteration s up msg_len request =
      ⟨resp, some (be32 msg_len ++ request), true⟩ := by
  have hfir : s.filter_identities_response up.listKeys resp =
      Except.ok resp := by
    unfold FilteredSocket.filter_identities_response
    rw [if_pos hnot]
  refine ⟨hfir, ?_⟩
  have hmax : ¬ msg_len > 1048576 := by omega
  have hsf : should_filter_request (be32 msg_len ++ request) = false := by
    have h4 : (be32 msg_len ++ request).getD 4 0 = 11 := by
      have := getD_be32_append msg_len 0 0 request
      simp only [Nat.add_zero] at this
      rw [this, h11]
    unfold should_filter_request
    rw [h4]
    simp
  have hlist : (!request.isEmpty && (request.getD 0 0 == 11)) = true := by
    cases request with
    | nil => exact absurd rfl hne
    | cons a t => simp_all
  simp [handleIteration, hmax, hsf, hfw, hlist, hfir]

/-- Witness for C10: a failure frame from upstream is relayed
byte-for-byte. -/
theorem c10_non_answer_relayed_witness :
    FilteredSocket.filter_identities_response ⟨[], []⟩ (Except.error ())
        [0, 0, 0, 1, 5] = Except.ok [0, 0, 0, 1, 5] ∧
    handleIteration ⟨[], []⟩
        ⟨Except.error (), fun _ => Except.ok [0, 0, 0, 1, 5]⟩ 1 [11] =
      ⟨[0, 0, 0, 1, 5], some (be32 1 ++ [11]), true⟩ :=
  c10_non_answer_relayed ⟨[], []⟩
    ⟨Except.error (), fun _ => Except.ok [0, 0, 0, 1, 5]⟩ 1 [11]
    [0, 0, 0, 1, 5] (by decide) (by decide) rfl rfl (by decide)

/-! ## C1 -/

/-- C1: when the upstream answer frame is a type-12 identities answer,
the emitted frame is exactly the length prefix plus the body
`[12] ++ be32 count ++ encodings of the admitted identities` — so no
blob or comment byte of a non-admitted identity appears in it; an
identity is in the emitted list iff it is in the upstream listing and
the policy admits the fingerprint of its blob (the well-formedness
hypothesis records that `list_keys` fills the fingerprint field from the
blob); and the count field encodes exactly the number of admitted
identities. -/
theorem c1_identities_answer_filter (s : FilteredSocket)
    (keys : List SshKey) (response : List Nat)
    (hlen : 5 ≤ response.length) (h12 : response.getD 4 0 = 12)
    (hwf : ∀ k ∈ keys, k.fingerprint = calculate_fingerprint k.blob)
    (hcount : (keys.filter s.is_key_allowed).length < 4294967296) :
    ∃ filtered : List SshKey,
      filtered = keys.filter s.is_key_allowed ∧
      s.filter_identities_response (Except.ok keys) response =
        Except.ok (be32 (12 :: (be32 filtered.length ++
            (filtered.map encodeKey).flatten)).length ++
          (12 :: (be32 filtered.length ++
            (filtered.map encodeKey).flatten))) ∧
      (∀ k, k ∈ filtered ↔ k ∈ keys ∧
        s.is_key_allowed ⟨k.key_type, k.blob, k.comment,
          calculate_fingerprint k.blob⟩ = true) ∧
      readBE32 (be32 filtered.length) 0 = filtered.length := by
  refine ⟨keys.filter s.is_key_allowed, rfl, ?_, ?_, readBE32_be32 _ hcount⟩
  · unfold FilteredSocket.filter_identities_response
    rw [if_neg (by rw [h12]; simp; omega)]
  · intro k
    rw [List.mem_filter]
    have hcongr : ∀ hk : k ∈ keys,
        s.is_key_allowed k =
          s.is_key_allowed ⟨k.key_type, k.blob, k.comment,
            calculate_fingerprint k.blob⟩ := fun hk =>
      is_key_allowed_congr s k _ (hwf k hk)
    constructor
    · rintro ⟨hk, ha⟩
      exact ⟨hk, (hcongr hk) ▸ ha⟩
    · rintro ⟨hk, ha⟩
      exact ⟨hk, (hcongr hk).symm ▸ ha⟩

/-- Witness for C1 at the empty upstream listing. -/
theorem c1_identities_answer_filter_witness :
    ∃ filtered : List SshKey,
      filtered = List.filter
        (FilteredSocket.is_key_allowed ⟨[], []⟩) [] ∧
      FilteredSocket.filter_identities_response ⟨[], []⟩ (Except.ok [])
          [0, 0, 0, 1, 12] =
        Except.ok (be32 (12 :: (be32 filtered.length ++
            (filtered.map encodeKey).flatten)).length ++
          (12 :: (be32 filtered.length ++
            (filtered.map encodeKey).flatten))) ∧
      (∀ k, k ∈ filtered ↔ k ∈ ([] : List SshKey) ∧
        FilteredSocket.is_key_allowed ⟨[], []⟩
          ⟨k.key_type, k.blob, k.comment,
            calculate_fingerprint k.blob⟩ = true) ∧
      readBE32 (be32 filtered.length) 0 = filtered.length :=
  c1_identities_answer_filter ⟨[], []⟩ [] [0, 0, 0, 1, 12]
    (by decide) rfl (by simp) (by decide)

/-! ## C2 -/

/-- In `filter_sign_request`, when some upstream identity has a
byte-equal blob and is not admitted, the first byte-equal identity in
the loop is also not admitted (fingerprints agree on equal blobs), so
the loop answers the refusal frame. -/
lemma signDecision_refuse (s : FilteredSocket) (blob : List Nat)
    (keys : List SshKey)
    (hfp : ∀ k₁ ∈ keys, ∀ k₂ ∈ keys, k₁.blob = k₂.blob →
      k₁.fingerprint = k₂.fingerprint)
    (hex : ∃ k ∈ keys, k.blob = blob ∧ s.is_key_allowed k = false) :
    signDecision s blob keys = some [0, 0, 0, 1, 5] := by
  induction keys with
  | nil =>
    rcases hex with ⟨k, hk, _⟩
    exact absurd hk (List.not_mem_nil k)
  | cons k0 rest ih =>
    rcases hex with ⟨k, hk, hkb, hka⟩
    by_cases h0 : k0.blob = blob
    · unfold signDecision
      rw [if_pos h0]
      have hfp0 : k.fingerprint = k0.fingerprint :=
        hfp k hk k0 (List.mem_cons_self k0 rest) (hkb.trans h0.symm)
      have hall : s.is_key_allowed k0 = false :=
        (is_key_allowed_congr s k k0 hfp0) ▸ hka
      rw [hall]
      simp
    · unfold signDecision
      rw [if_neg h0]
      refine ih (fun k₁ h₁ k₂ h₂ hb =>
        hfp k₁ (List.mem_cons_of_mem _ h₁) k₂ (List.mem_cons_of_mem _ h₂) hb) ?_
      rcases List.mem_cons.mp hk with h | h
      · exact absurd (h ▸ hkb) h0
      · exact ⟨k, h, hkb, hka⟩

/-- When no upstream identity has a byte-equal blob, the loop of
`filter_sign_request` falls through and the request is not refused. -/
lemma signDecision_none (s : FilteredSocket) (blob : List Nat)
    (keys : List SshKey) (hno : ∀ k ∈ keys, k.blob ≠ blob) :
    signDecision s blob keys = none := by
  induction keys with
  | nil => rfl
  | cons k0 rest ih =>
    unfold signDecision
    rw [if_neg (hno k0 (List.mem_cons_self k0 rest))]
    exact ih (fun k h => hno k (List.mem_cons_of_mem _ h))

/-- C2: for a type-13 sign request (full frame `be32 msg_len ++
request`, blob length at bytes 5..9, blob at 9..): if the referenced
blob is byte-equal to the blob of some upstream identity that the policy
does not admit, the iteration writes exactly `[0,0,0,1,5]` downstream,
forwards nothing upstream, and the loop continues; if extraction fails
on the bounds or the blob matches no upstream identity, the original
frame is forwarded upstream verbatim and the upstream response is
relayed — extraction failure is never a refusal. -/
theorem c2_sign_request_policy (s : FilteredSocket) (up : Upstream)
    (keys : List SshKey) (msg_len : Nat) (request : List Nat)
    (hle : msg_len ≤ 1048576)
    (hne : request ≠ [])
    (h13 : request.getD 0 0 = 13)
    (hlk : up.listKeys = Except.ok keys)
    (hfp : ∀ k₁ ∈ keys, ∀ k₂ ∈ keys, k₁.blob = k₂.blob →
      k₁.fingerprint = k₂.fingerprint) :
    ((9 + readBE32 (be32 msg_len ++ request) 5 ≤ 4 + request.length →
      (∃ k ∈ keys,
          k.blob = ((be32 msg_len ++ request).drop 9).take
            (readBE32 (be32 msg_len ++ request) 5) ∧
          s.is_key_allowed k = false) →
      handleIteration s up msg_len request =
        ⟨[0, 0, 0, 1, 5], none, true⟩)) ∧
    (∀ resp, up.forward (be32 msg_len ++ request) = Except.ok resp →
      (4 + request.length < 9 ∨
       4 + request.length < 9 + readBE32 (be32 msg_len ++ request) 5 ∨
       (∀ k ∈ keys,
          k.blob ≠ ((be32 msg_len ++ request).drop 9).take
            (readBE32 (be32 msg_len ++ request) 5))) →
      handleIteration s up msg_len request =
        ⟨resp, some (be32 msg_len ++ request), true⟩) := by
  have hmax : ¬ msg_len > 1048576 := by omega
  have hflen : (be32 msg_len ++ request).length = 4 + request.length := by
    simp [length_be32]
  have h4 : (be32 msg_len ++ request).getD 4 0 = 13 := by
    have := getD_be32_append msg_len 0 0 request
    simp only [Nat.add_zero] at this
    rw [this, h13]
  have hsf : should_filter_request (be32 msg_len ++ request) = true := by
    unfold should_filter_request
    rw [h4, hflen]
    have : request.length ≠ 0 := by
      intro h
      exact hne (List.eq_nil_of_length_eq_zero h)
    simp
    omega
  have hnl : (!request.isEmpty && (request.getD 0 0 == 11)) = false := by
    rw [h13]
    simp
  constructor
  · intro hbound hex
    have hfsr : s.filter_sign_request up.listKeys (be32 msg_len ++ request) =
        Except.ok (some [0, 0, 0, 1, 5]) := by
      unfold FilteredSocket.filter_sign_request
      rw [hflen, if_neg (by omega), if_neg (by omega), hlk]
      show Except.ok (signDecision s
        (((be32 msg_len ++ request).drop 9).take
          (readBE32 (be32 msg_len ++ request) 5)) keys) = _
      rw [signDecision_refuse s _ keys hfp hex]
    simp [handleIteration, hmax, hsf, hfsr]
  · intro resp hfw hcase
    have hfsr : s.filter_sign_request up.listKeys (be32 msg_len ++ request) =
        Except.ok none := by
      unfold FilteredSocket.filter_sign_request
      rcases hcase with h | h | h
      · rw [hflen, if_pos (by omega)]
      · rw [hflen]
        by_cases h9 : 4 + request.length < 9
        · rw [if_pos h9]
        · rw [if_neg h9, if_pos (by omega)]
      · rw [hflen]
        by_cases h9 : 4 + request.length < 9
        · rw [if_pos h9]
        · rw [if_neg h9]
          by_cases hb : 4 + request.length <
              9 + readBE32 (be32 msg_len ++ request) 5
          · rw [if_pos hb]
          · rw [if_neg hb, hlk]
            show Except.ok (signDecision s
              (((be32 msg_len ++ request).drop 9).take
                (readBE32 (be32 msg_len ++ request) 5)) keys) = _
            rw [signDecision_none s _ keys h]
    have h13g : request[0]?.getD 0 = 13 := by
      rw [← List.get?_eq_getElem?, ← List.getD_eq_getD_get?]
      exact h13
    simp [handleIteration, hmax, hsf, hfsr, hfw, hnl, h13g]

/-- Witness for C2: a sign request for a denied key is refused without
touching upstream, and one whose blob matches no upstream identity is
forwarded verbatim. -/
theorem c2_sign_request_policy_witness :
    (handleIteration ⟨[], ["f"]⟩
        ⟨Except.ok [⟨[], [65], [], "f"⟩], fun _ => Except.ok [0, 0, 0, 1, 14]⟩
        10 [13, 0, 0, 0, 1, 65, 0, 0, 0, 0] =
      ⟨[0, 0, 0, 1, 5], none, true⟩) ∧
    (handleIteration ⟨[], ["f"]⟩
        ⟨Except.ok [⟨[], [65], [], "f"⟩], fun _ => Except.ok [0, 0, 0, 1, 14]⟩
        10 [13, 0, 0, 0, 1, 66, 0, 0, 0, 0] =
      ⟨[0, 0, 0, 1, 14],
       some (be32 10 ++ [13, 0, 0, 0, 1, 66, 0, 0, 0, 0]), true⟩) :=
  ⟨(c2_sign_request_policy ⟨[], ["f"]⟩
      ⟨Except.ok [⟨[], [65], [], "f"⟩], fun _ => Except.ok [0, 0, 0, 1, 14]⟩
      [⟨[], [65], [], "f"⟩] 10 [13, 0, 0, 0, 1, 65, 0, 0, 0, 0]
      (by decide) (by decide) rfl rfl (by decide)).1
    (by decide) ⟨⟨[], [65], [], "f"⟩, by decide, by decide, by decide⟩,
   (c2_sign_request_policy ⟨[], ["f"]⟩
      ⟨Except.ok [⟨[], [65], [], "f"⟩], fun _ => Except.ok [0, 0, 0, 1, 14]⟩
      [⟨[], [65], [], "f"⟩] 10 [13, 0, 0, 0, 1, 66, 0, 0, 0, 0]
      (by decide) (by decide) rfl rfl (by decide)).2
    [0, 0, 0, 1, 14] rfl (Or.inr (Or.inr (by decide)))⟩

/-! ## C4 -/

/-- A SHA-256 digest is 32 bytes. -/
lemma sha256_length (msg : List Nat) : (sha256 msg).length = 32 := by
  simp [sha256, be32]

/-- Every alphabet lookup lands in the alphabet (an in-range index hits
the table, and the out-of-range default is itself a table entry). -/
lemma b64c_mem (n : Nat) : b64c n ∈ b64Table := by
  by_cases h : n < b64Table.length
  · rw [b64c, List.getD_eq_getElem _ _ h]
    exact List.getElem_mem h
  · rw [b64c, List.getD_eq_default _ _ (Nat.le_of_not_lt h)]
    decide

/-- Length of the base64 encoding of a list of `3 * n + 2` bytes. -/
lemma b64Encode_length_aux :
    ∀ n (l : List Nat), l.length = 3 * n + 2 →
      (b64Encode l).length = 4 * n + 3 := by
  intro n
  induction n with
  | zero =>
    intro l hl
    match l, hl with
    | [a, b], _ => rfl
  | succ m ih =>
    intro l hl
    match l with
    | a :: b :: c :: rest =>
      have hr : rest.length = 3 * m + 2 := by
        simp only [List.length_cons] at hl
        omega
      simp only [b64Encode, List.length_cons, ih rest hr]
      omega

/-- Every character of a base64 encoding is an alphabet character. -/
lemma b64Encode_mem : ∀ l : List Nat, ∀ c ∈ b64Encode l, c ∈ b64Table := by
  intro l
  induction l using b64Encode.induct with
  | case1 a b c rest ih =>
    intro x hx
    simp only [b64Encode, List.mem_cons] at hx
    rcases hx with h | h | h | h | h
    · exact h ▸ b64c_mem _
    · exact h ▸ b64c_mem _
    · exact h ▸ b64c_mem _
    · exact h ▸ b64c_mem _
    · exact ih x h
  | case2 a b =>
    intro x hx
    simp only [b64Encode, List.mem_cons] at hx
    rcases hx with h | h | h | h
    · exact h ▸ b64c_mem _
    · exact h ▸ b64c_mem _
    · exact h ▸ b64c_mem _
    · exact absurd h (List.not_mem_nil x)
  | case3 a =>
    intro x hx
    simp only [b64Encode, List.mem_cons] at hx
    rcases hx with h | h | h
    · exact h ▸ b64c_mem _
    · exact h ▸ b64c_mem _
    · exact absurd h (List.not_mem_nil x)
  | case4 =>
    intro x hx
    exact absurd hx (List.not_mem_nil x)

/-- C4: the fingerprint of every blob is the string `SHA256:` followed
by the standard-alphabet base64 encoding, without padding, of the
SHA-256 digest of the blob; that suffix always has exactly 43
characters, all from the standard alphabet `[A-Za-z0-9+/]` (so the whole
string matches `^SHA256:[A-Za-z0-9+/]{43}$`); and the fingerprint is a
pure function of the blob. -/
theorem c4_fingerprint_shape :
    ∀ blob : List Nat,
      calculate_fingerprint blob =
        "SHA256:" ++ String.mk (b64Encode (sha256 blob)) ∧
      (∃ t : List Char,
        (calculate_fingerprint blob).data = "SHA256:".data ++ t ∧
        t.length = 43 ∧ ∀ c ∈ t, c ∈ b64Table) ∧
      (∀ blob₂, blob = blob₂ →
        calculate_fingerprint blob = calculate_fingerprint blob₂) := by
  intro blob
  refine ⟨rfl, ⟨b64Encode (sha256 blob), ?_, ?_, b64Encode_mem _⟩,
    fun _ h => by rw [h]⟩
  · rfl
  · exact b64Encode_length_aux 10 _ (by rw [sha256_length])

/-- Witness for C4 at the empty blob. -/
theorem c4_fingerprint_shape_witness :
    (∃ t : List Char,
      (calculate_fingerprint []).data = "SHA256:".data ++ t ∧
      t.length = 43 ∧ ∀ c ∈ t, c ∈ b64Table) ∧
    calculate_fingerprint [] = calculate_fingerprint [] :=
  ⟨(c4_fingerprint_shape []).2.1, (c4_fingerprint_shape []).2.2 [] rfl⟩

/-! ## C8 -/

/-- On valid UTF-8 input the fueled lossy re-encoding is the
identity. -/
lemma utf8LossyFuel_of_valid : ∀ fuel (l : List Nat), l.length ≤ fuel →
    utf8ValidFuel fuel l = true → utf8LossyFuel fuel l = l := by
  intro fuel
  induction fuel with
  | zero =>
    intro l h _
    cases l with
    | nil => rfl
    | cons b rest => simp at h
  | succ f ih =>
    intro l h hv
    cases l with
    | nil => rfl
    | cons b0 rest =>
      simp only [utf8ValidFuel] at hv
      simp only [utf8LossyFuel]
      cases hc : utf8Class b0 rest with
      | mk ok n =>
        rw [hc] at hv
        cases ok with
        | false => exact absurd hv (by simp)
        | true =>
          have hv' : utf8ValidFuel f (rest.drop n) = true := hv
          have hle : (rest.drop n).length ≤ f := by
            simp only [List.length_drop]
            simp only [List.length_cons] at h
            omega
          show b0 :: (rest.take n ++ utf8LossyFuel f (rest.drop n)) = b0 :: rest
          rw [ih (rest.drop n) hle hv', List.take_append_drop]

/-- `String::from_utf8_lossy` keeps valid UTF-8 bytes unchanged. -/
lemma utf8Lossy_of_valid (l : List Nat) (h : utf8Valid l = true) :
    utf8Lossy l = l :=
  utf8LossyFuel_of_valid l.length l (Nat.le_refl _) h

/-- One raw (blob bytes, comment bytes) entry as laid out on the wire
inside a type-12 identities-answer body. -/
def encodeEntry (p : List Nat × List Nat) : List Nat :=
  be32 p.1.length ++ p.1 ++ be32 p.2.length ++ p.2

/-- A full type-12 identities-answer body carrying the given raw
entries. -/
def encodeAnswerBody (entries : List (List Nat × List Nat)) : List Nat :=
  12 :: (be32 entries.length ++ (entries.map encodeEntry).flatten)

lemma drop4_be32_append (n : Nat) (l : List Nat) :
    (be32 n ++ l).drop 4 = l := by
  have h := List.drop_left (be32 n) l
  rwa [length_be32] at h

lemma readBE32_cons (a : Nat) (l : List Nat) (i : Nat) :
    readBE32 (a :: l) (i + 1) = readBE32 l i := by
  have g : ∀ j : Nat, (a :: l).getD (j + 1) 0 = l.getD j 0 := fun j => rfl
  show from4 ((a :: l).getD (i + 1) 0) ((a :: l).getD (i + 1 + 1) 0)
      ((a :: l).getD (i + 1 + 2) 0) ((a :: l).getD (i + 1 + 3) 0) = _
  rw [show i + 1 + 1 = (i + 1) + 1 from rfl, show i + 1 + 2 = (i + 2) + 1 by omega,
    show i + 1 + 3 = (i + 3) + 1 by omega, g i, g (i + 1), g (i + 2), g (i + 3)]
  rfl

/-- The parsing loop of `list_keys` recovers, from a well-formed wire
body, exactly the blob bytes of each entry and the lossy re-encoding of
its comment bytes. -/
lemma parseKeys_encode :
    ∀ entries : List (List Nat × List Nat),
      (∀ p ∈ entries, p.1.length < 4294967296 ∧ p.2.length < 4294967296) →
      parseKeys entries.length ((entries.map encodeEntry).flatten) =
        entries.map (fun p =>
          SshKey.from_blob (parseKeyType p.1) p.1 (utf8Lossy p.2)) := by
  intro entries
  induction entries with
  | nil => intro _; rfl
  | cons p es ih =>
    intro hb
    obtain ⟨hb1, hb2⟩ := hb p (List.mem_cons_self p es)
    have hbrest : ∀ q ∈ es, q.1.length < 4294967296 ∧ q.2.length < 4294967296 :=
      fun q hq => hb q (List.mem_cons_of_mem _ hq)
    simp only [List.map_cons, List.flatten_cons, List.length_cons, encodeEntry,
      List.append_assoc]
    have h1 : readBE32 (be32 p.1.length ++ (p.1 ++ (be32 p.2.length ++
        (p.2 ++ (es.map encodeEntry).flatten)))) 0 = p.1.length :=
      readBE32_be32_append _ _ hb1
    have hd4 : (be32 p.1.length ++ (p.1 ++ (be32 p.2.length ++
        (p.2 ++ (es.map encodeEntry).flatten)))).drop 4 =
        p.1 ++ (be32 p.2.length ++ (p.2 ++ (es.map encodeEntry).flatten)) :=
      drop4_be32_append _ _
    have h2 : readBE32 (be32 p.2.length ++
        (p.2 ++ (es.map encodeEntry).flatten)) 0 = p.2.length :=
      readBE32_be32_append _ _ hb2
    have hd4' : (be32 p.2.length ++
        (p.2 ++ (es.map encodeEntry).flatten)).drop 4 =
        p.2 ++ (es.map encodeEntry).flatten :=
      drop4_be32_append _ _
    have c1 : ¬ ((be32 p.1.length ++ (p.1 ++ (be32 p.2.length ++
        (p.2 ++ (es.map encodeEntry).flatten)))).length < 4) := by
      simp [length_be32]
    have c2 : ¬ ((p.1 ++ (be32 p.2.length ++
        (p.2 ++ (es.map encodeEntry).flatten))).length < p.1.length) := by
      simp [length_be32]
    have c3 : ¬ ((be32 p.2.length ++
        (p.2 ++ (es.map encodeEntry).flatten)).length < 4) := by
      simp [length_be32]
    have c4 : ¬ ((p.2 ++ (es.map encodeEntry).flatten).length < p.2.length) := by
      simp
    simp only [parseKeys, h1, hd4, h2, hd4', c1, c2, c3, c4, if_false,
      List.take_left, List.drop_left, ih hbrest]

/-- C8 counterexample: an upstream listing holding one identity with
blob `[65]` and comment byte `[255]` (not valid UTF-8).  The rewritten
type-12 frame carries comment bytes `[239, 191, 189]` (U+FFFD), not the
received byte `[255]`, because `list_keys` materializes the comment
through `String::from_utf8_lossy`. -/
theorem c8_counterexample :
    FilteredSocket.filter_identities_response ⟨[], []⟩
        (list_keys_parse [12, 0, 0, 0, 1, 0, 0, 0, 1, 65, 0, 0, 0, 1, 255])
        [0, 0, 0, 14, 12, 0, 0, 0, 1, 0, 0, 0, 1, 65, 0, 0, 0, 1, 255] =
      Except.ok [0, 0, 0, 17, 12, 0, 0, 0, 1, 0, 0, 0, 1, 65,
        0, 0, 0, 3, 239, 191, 189] ∧
    [0, 0, 0, 17, 12, 0, 0, 0, 1, 0, 0, 0, 1, 65, 0, 0, 0, 3,
        239, 191, 189] ≠
      [0, 0, 0, 15, 12, 0, 0, 0, 1, 0, 0, 0, 1, 65, 0, 0, 0, 1, 255] :=
  ⟨rfl, by decide⟩

/-- C8 as amended: for a well-formed upstream listing wire body, the
rewrite keeps the relative order of admitted identities (the filtered
list is an order-preserving sublist of the parsed listing), the blob
bytes placed in the rewritten frame are exactly the received blob bytes,
and the comment bytes are exactly the received comment bytes whenever
those are valid UTF-8; in general the placed comment is the UTF-8 lossy
re-encoding of the received bytes. -/
theorem c8_admitted_bytes_preserved (s : FilteredSocket)
    (entries : List (List Nat × List Nat)) (response : List Nat)
    (hb : ∀ p ∈ entries, p.1.length < 4294967296 ∧ p.2.length < 4294967296)
    (hn : entries.length < 4294967296)
    (hlen : 5 ≤ response.length) (h12 : response.getD 4 0 = 12) :
    ∃ keys : List SshKey,
      list_keys_parse (encodeAnswerBody entries) = Except.ok keys ∧
      keys.map SshKey.blob = entries.map Prod.fst ∧
      keys.map SshKey.comment = entries.map (fun p => utf8Lossy p.2) ∧
      ((∀ p ∈ entries, utf8Valid p.2 = true) →
        keys.map SshKey.comment = entries.map Prod.snd) ∧
      List.Sublist (keys.filter s.is_key_allowed) keys ∧
      s.filter_identities_response (Except.ok keys) response =
        Except.ok (be32 (12 :: (be32 (keys.filter s.is_key_allowed).length ++
            ((keys.filter s.is_key_allowed).map encodeKey).flatten)).length ++
          (12 :: (be32 (keys.filter s.is_key_allowed).length ++
            ((keys.filter s.is_key_allowed).map encodeKey).flatten))) := by
  refine ⟨entries.map (fun p =>
    SshKey.from_blob (parseKeyType p.1) p.1 (utf8Lossy p.2)),
    ?_, ?_, ?_, ?_, List.filter_sublist _, ?_⟩
  · unfold list_keys_parse encodeAnswerBody
    have hcond : ¬ ((12 :: (be32 entries.length ++
        (entries.map encodeEntry).flatten)).isEmpty = true ∨
        (12 :: (be32 entries.length ++
          (entries.map encodeEntry).flatten)).getD 0 0 ≠ 12) := by
      simp [List.isEmpty]
    rw [if_neg hcond,
      if_neg (by simp [length_be32]),
      show readBE32 (12 :: (be32 entries.length ++
          (entries.map encodeEntry).flatten)) 1 = entries.length by
        rw [show (1 : Nat) = 0 + 1 from rfl, readBE32_cons,
          readBE32_be32_append _ _ hn],
      show (12 :: (be32 entries.length ++
          (entries.map encodeEntry).flatten)).drop 5 =
          (entries.map encodeEntry).flatten by
        rw [show (5 : Nat) = 4 + 1 from rfl, List.drop_succ_cons,
          drop4_be32_append],
      parseKeys_encode entries hb]
  · simp [SshKey.from_blob, List.map_map, Function.comp]
  · simp [SshKey.from_blob, List.map_map, Function.comp]
  · intro hval
    rw [List.map_map]
    refine List.map_congr_left fun p hp => ?_
    show (SshKey.from_blob (parseKeyType p.1) p.1 (utf8Lossy p.2)).comment = p.2
    show utf8Lossy p.2 = p.2
    exact utf8Lossy_of_valid p.2 (hval p hp)
  · unfold FilteredSocket.filter_identities_response
    rw [if_neg (by rw [h12]; simp; omega)]

/-- Witness for C8 as amended at one entry with blob `[65]` and the
valid-UTF-8 comment `[104]`. -/
theorem c8_admitted_bytes_preserved_witness :
    ∃ keys : List SshKey,
      list_keys_parse (encodeAnswerBody [([65], [104])]) = Except.ok keys ∧
      keys.map SshKey.blob = [([65], [104])].map Prod.fst ∧
      keys.map SshKey.comment =
        [([65], [104])].map (fun p => utf8Lossy p.2) ∧
      ((∀ p ∈ [([65], [104])], utf8Valid p.2 = true) →
        keys.map SshKey.comment = [([65], [104])].map Prod.snd) ∧
      List.Sublist
        (keys.filter (FilteredSocket.is_key_allowed ⟨[], []⟩)) keys ∧
      FilteredSocket.filter_identities_response ⟨[], []⟩ (Except.ok keys)
          [0, 0, 0, 1, 12] =
        Except.ok (be32 (12 :: (be32
            (keys.filter (FilteredSocket.is_key_allowed ⟨[], []⟩)).length ++
            ((keys.filter (FilteredSocket.is_key_allowed ⟨[], []⟩)).map
              encodeKey).flatten)).length ++
          (12 :: (be32
            (keys.filter (FilteredSocket.is_key_allowed ⟨[], []⟩)).length ++
            ((keys.filter (FilteredSocket.is_key_allowed ⟨[], []⟩)).map
              encodeKey).flatten))) :=
  c8_admitted_bytes_preserved ⟨[], []⟩ [([65], [104])] [0, 0, 0, 1, 12]
    (by decide) (by decide) (by decide) rfl

end SshAgentRouter
